import Mathlib

/-!
Verification of the offline-resilience core of `scan-api-pwa.js`: the
service-worker fetch interceptor (cache-first with selective population),
the install/activate cache-generation lifecycle, and the background-sync
drain of the persistent pending-scan queue, together with the widget's
`saveForOffline` enqueue path.

Shallow embedding conventions: a `Response` is a status plus an opaque body
(`Response.ok` is the platform's 200..299 rule); the cache is an association
list from request URL to stored response, read through first-match lookup
exactly as `caches.match` reads the single named cache this worker ever
creates; the network is an oracle `String → Option Response` where `none`
is a rejected fetch; the IndexedDB queue operations `add`/`getAll`/`delete`
are not in the repository source, so their semantics are modelled from the
spec where marked.
-/

namespace ScanApiPwa

/-- The constant `CACHE_NAME = 'mobicard-scanner-v1'` (line 2 of the source). -/
def CACHE_NAME : String := "mobicard-scanner-v1"

/-- The fixed manifest list `ASSETS_TO_CACHE` (lines 3-11 of the source). -/
def ASSETS_TO_CACHE : List String :=
  ["/",
   "/index.html",
   "/styles.css",
   "/mobicard-scanner.js",
   "https://code.jquery.com/jquery-3.7.1.min.js",
   "https://cdn.jsdelivr.net/npm/bootstrap@4.6.2/dist/css/bootstrap.min.css",
   "https://cdn.jsdelivr.net/npm/bootstrap@4.6.2/dist/js/bootstrap.bundle.min.js"]

/-- An HTTP response: its numeric status and an opaque body snapshot. -/
structure Response where
  status : Nat
  body : String
deriving DecidableEq

/-- The platform's `response.ok`: status in the inclusive range 200..299. -/
def Response.ok (r : Response) : Bool := 200 ≤ r.status && r.status < 300

/-- An intercepted request; the fetch handler keys the cache by the request,
whose identity here is its URL. -/
structure Request where
  url : String
deriving DecidableEq

/-- Character-list helper: the first list is an initial run of the second. -/
def leadsWith : List Char → List Char → Bool
  | [], _ => true
  | _ :: _, [] => false
  | a :: as, b :: bs => a == b && leadsWith as bs

/-- Character-list helper: the first list occurs contiguously in the second. -/
def hasSub (n : List Char) : List Char → Bool
  | [] => n.isEmpty
  | c :: cs => leadsWith n (c :: cs) || hasSub n cs

/-- JavaScript `s.includes(sub)` on strings: contiguous-substring test. -/
def includes (s sub : String) : Bool := hasSub sub.data s.data

/-- The single named cache: URL → stored response, read by first match. -/
abbrev Cache := List (String × Response)

/-- Model of `caches.match(request)`: first stored response for the URL. -/
def cacheMatch : Cache → String → Option Response
  | [], _ => none
  | (k, r) :: rest, url => if k == url then some r else cacheMatch rest url

/-- Model of `cache.put(request, response)`: store under the URL; the new entry
shadows any older one under first-match lookup. -/
def cachePut (c : Cache) (url : String) (r : Response) : Cache := (url, r) :: c

/-- What the fetch handler answered with: a cached response, a network
response, or a propagated network failure. -/
inductive FetchOutcome where
  | fromCache (r : Response)
  | fromNet (r : Response)
  | netFail
deriving DecidableEq

/-- The fetch event listener (lines 38-65 of the source): cache first; on a
miss, fetch from the network; never cache URLs containing `/api/`; cache a
clone of status-200 responses; return the network response otherwise.
Returns the outcome together with the cache state after the handler. -/
def handleFetch (c : Cache) (net : String → Option Response) (req : Request) :
    FetchOutcome × Cache :=
  match cacheMatch c req.url with
  | some r => (FetchOutcome.fromCache r, c)
  | none =>
    match net req.url with
    | none => (FetchOutcome.netFail, c)
    | some r =>
      if includes req.url "/api/" then (FetchOutcome.fromNet r, c)
      else if r.status == 200 then (FetchOutcome.fromNet r, cachePut c req.url r)
      else (FetchOutcome.fromNet r, c)

/-- Runs `n` consecutive fetches of the same request against a fixed network
oracle, threading the cache state; returns the outcomes in order. -/
def fetchMany (net : String → Option Response) (req : Request) :
    Nat → Cache → List FetchOutcome × Cache
  | 0, c => ([], c)
  | n + 1, c =>
    let first := handleFetch c net req
    let rest := fetchMany net req n first.2
    (first.1 :: rest.1, rest.2)

/-- Model of `cache.addAll(urls)` (line 17): fetch every URL; if any fetch fails the
whole operation fails and nothing is stored (atomic); on success, every URL
is paired with its fetched response, in manifest order. -/
def addAll (net : String → Option Response) : List String → Option (List (String × Response))
  | [] => some []
  | u :: rest =>
    match net u, addAll net rest with
    | some r, some tl => some ((u, r) :: tl)
    | _, _ => none

/-- The install event listener (lines 14-20): populate the cache with every
manifest asset via `addAll`; failure of any asset fetch fails the install. -/
def install (net : String → Option Response) (c : Cache) : Option Cache :=
  (addAll net ASSETS_TO_CACHE).map (fun entries => entries ++ c)

/-- Events that can mutate the worker's cache state. -/
inductive SwEvent where
  | installEv (net : String → Option Response)
  | fetchEv (net : String → Option Response) (req : Request)

/-- Effect of one event on the cache: a failed install leaves the cache
untouched (`addAll` is atomic); a fetch updates the cache per the handler. -/
def applyEvent (c : Cache) : SwEvent → Cache
  | SwEvent.installEv net =>
    match install net c with
    | some c2 => c2
    | none => c
  | SwEvent.fetchEv net req => (handleFetch c net req).2

/-- Cache state reached from the empty cache by a sequence of events. -/
def runEvents (c : Cache) (events : List SwEvent) : Cache :=
  events.foldl applyEvent c

/-- The activate event listener (lines 23-35): delete every cache whose name
differs from `CACHE_NAME`; the stores that survive are exactly those named
`CACHE_NAME`. `clients.claim()` runs only after the deletions resolve, so
requests served after activation see this filtered state. -/
def activate (stores : List (String × Cache)) : List (String × Cache) :=
  stores.filter (fun s => s.1 == CACHE_NAME)

/-- Model of `caches.match` over several named caches: first cache holding the URL
wins; reports which named cache served the response. -/
def multiMatch (stores : List (String × Cache)) (url : String) :
    Option (String × Response) :=
  match stores with
  | [] => none
  | (name, c) :: rest =>
    match cacheMatch c url with
    | some r => some (name, r)
    | none => multiMatch rest url

/-- A record of the `pending` object store as the drain reads it. The fields
are those `saveForOffline` (lines 271-276) writes — url, headers, body,
timestamp — plus the id the store assigns; there is no method field. -/
structure PendingScan where
  id : Nat
  url : String
  headers : List (String × String)
  body : String
  timestamp : Nat
deriving DecidableEq

/-- The data of an outbound `fetch(url, {method, headers, body})` call. -/
structure SyncRequest where
  url : String
  method : String
  headers : List (String × String)
  body : String
deriving DecidableEq

/-- The request `syncScans` issues for a pending scan (lines 80-84): the
entry's url, headers and body, with the method hardcoded to `'POST'`. -/
def resubmitRequest (scan : PendingScan) : SyncRequest :=
  { url := scan.url, method := "POST", headers := scan.headers, body := scan.body }

/-- A record with the spec's full PendingScanEntry shape, including a stored
method. `saveForOffline` never writes such a method field; this shape exists
to state what the drain would do with one. -/
structure SpecPendingEntry where
  id : Nat
  url : String
  method : String
  headers : List (String × String)
  body : String
  timestamp : Nat
deriving DecidableEq

/-- Lines 80-84 applied to a record carrying the spec's full entry shape:
the code reads only `scan.url`, `scan.headers`, `scan.body` and passes the
literal `'POST'` as the method, ignoring any stored method. -/
def resubmitSpecEntry (e : SpecPendingEntry) : SyncRequest :=
  { url := e.url, method := "POST", headers := e.headers, body := e.body }

/-- The drain `syncScans` (lines 74-93) over the snapshot `getAll` returned, with the
network as an oracle on the issued request (`none` = thrown network error)
and `delFail` telling whether `db.delete` on a given id throws. Per entry in
order: issue the resubmission; on `response.ok`, delete the entry (a failed
delete is caught, leaving the entry); otherwise leave the entry; a caught
error never stops the loop. Returns the entries still in the store after
the drain and the requests attempted, in order. -/
def syncScans (snet : SyncRequest → Option Response) (delFail : Nat → Bool) :
    List PendingScan → List PendingScan × List SyncRequest
  | [] => ([], [])
  | scan :: rest =>
    let req := resubmitRequest scan
    let out := syncScans snet delFail rest
    match snet req with
    | none => (scan :: out.1, req :: out.2)
    | some r =>
      if r.ok then
        if delFail scan.id then (scan :: out.1, req :: out.2)
        else (out.1, req :: out.2)
      else (scan :: out.1, req :: out.2)

/-- An entry survives one drain exactly when its resubmission did not get an
ok response, or its deletion from the store threw. -/
def keptAfterSync (snet : SyncRequest → Option Response) (delFail : Nat → Bool)
    (scan : PendingScan) : Bool :=
  match snet (resubmitRequest scan) with
  | none => true
  | some r => !r.ok || delFail scan.id

/-- Modelled from the spec: `db.delete('pending', id)` — the IndexedDB
helper `openScansDatabase` is not in the repository source; spec §4.3 gives
`delete(id)` as removal by id, idempotent. -/
def removeById (store : List PendingScan) (i : Nat) : List PendingScan :=
  store.filter (fun e => e.id != i)

/-- Mid-drain state: the persistent store, the unprocessed remainder of the
`getAll` snapshot, the ids on which `db.delete` has been invoked, and the
ids whose resubmission the network has acknowledged with an ok response. -/
structure DrainState where
  store : List PendingScan
  queue : List PendingScan
  deletions : List Nat
  acks : List Nat
deriving DecidableEq

/-- One iteration of the `syncScans` loop as a step relation: a network
error or non-ok response leaves the store alone; an ok response records the
acknowledgement and invokes `db.delete`, which either throws (entry stays)
or removes the entry. -/
inductive DrainStep (snet : SyncRequest → Option Response) (delFail : Nat → Bool) :
    DrainState → DrainState → Prop where
  | netErr (store : List PendingScan) (s : PendingScan) (q : List PendingScan)
      (d a : List Nat) :
      snet (resubmitRequest s) = none →
      DrainStep snet delFail ⟨store, s :: q, d, a⟩ ⟨store, q, d, a⟩
  | netNotOk (store : List PendingScan) (s : PendingScan) (q : List PendingScan)
      (d a : List Nat) (r : Response) :
      snet (resubmitRequest s) = some r → r.ok = false →
      DrainStep snet delFail ⟨store, s :: q, d, a⟩ ⟨store, q, d, a⟩
  | deleteThrew (store : List PendingScan) (s : PendingScan) (q : List PendingScan)
      (d a : List Nat) (r : Response) :
      snet (resubmitRequest s) = some r → r.ok = true → delFail s.id = true →
      DrainStep snet delFail ⟨store, s :: q, d, a⟩ ⟨store, q, s.id :: d, s.id :: a⟩
  | deleteOk (store : List PendingScan) (s : PendingScan) (q : List PendingScan)
      (d a : List Nat) (r : Response) :
      snet (resubmitRequest s) = some r → r.ok = true → delFail s.id = false →
      DrainStep snet delFail ⟨store, s :: q, d, a⟩
        ⟨removeById store s.id, q, s.id :: d, s.id :: a⟩

/-- A JavaScript field value as stored in the queue record literal. -/
inductive JsValue where
  | str (s : String)
  | headerMap (hs : List (String × String))
  | num (n : Nat)
deriving DecidableEq

/-- The scan data handed to `saveForOffline`: the fields it reads. -/
structure ScanData where
  url : String
  headers : List (String × String)
  body : String
deriving DecidableEq

/-- The object literal `saveForOffline` persists (lines 271-276), as the
list of its fields in source order: url, headers, body, timestamp. -/
def pendingRecord (d : ScanData) (now : Nat) : List (String × JsValue) :=
  [("url", JsValue.str d.url),
   ("headers", JsValue.headerMap d.headers),
   ("body", JsValue.str d.body),
   ("timestamp", JsValue.num now)]

/-- A record as held by the object store: its assigned id and its fields. -/
structure StoreRecord where
  id : Nat
  fields : List (String × JsValue)
deriving DecidableEq

/-- Largest id present in the store (0 when empty). -/
def maxId (store : List StoreRecord) : Nat :=
  store.foldr (fun r m => max r.id m) 0

/-- The id the store assigns to the next added record. -/
def freshId (store : List StoreRecord) : Nat := maxId store + 1

/-- Modelled from the spec: `db.add('pending', fields)` — the IndexedDB
helper `openDatabase` is not in the repository source; spec §4.3 gives
`add(entry)` as "assigns a unique id, appends". -/
def storeAdd (store : List StoreRecord) (fields : List (String × JsValue)) :
    List StoreRecord :=
  store ++ [⟨freshId store, fields⟩]

/-- Observable outcome of one `saveForOffline` call: its return value, the
queue store afterwards, and whether `sync.register('sync-scans')` ran. -/
structure SaveResult where
  returned : Bool
  store : List StoreRecord
  syncRegistered : Bool
deriving DecidableEq

/-- The widget method `saveForOffline(scanData)` (lines 268-286): when `navigator.onLine` is
false, persist the record, register the sync tag if `this.syncRegistration`
is set, and return true; when online, return false and change nothing. -/
def saveForOffline (onLine : Bool) (hasSyncReg : Bool) (store : List StoreRecord)
    (d : ScanData) (now : Nat) : SaveResult :=
  if !onLine then
    { returned := true,
      store := storeAdd store (pendingRecord d now),
      syncRegistered := hasSyncReg }
  else
    { returned := false, store := store, syncRegistered := false }

/-- A successful static-asset response used in concrete scenarios. -/
def respOk : Response := ⟨200, "asset-body"⟩

/-- A server-error response used in concrete scenarios. -/
def respServerErr : Response := ⟨500, "server-error"⟩

/-- A network oracle that answers every URL with `respOk`. -/
def demoNet : String → Option Response := fun _ => some respOk

/-- A cache holding one stored stylesheet response. -/
def cachedCss : Cache := [("/styles.css", respOk)]

/-- Pending scan e1 of the drain-ordering scenario. -/
def scanE1 : PendingScan :=
  ⟨1, "https://api.mobicard.com/v1/scan", [("content-type", "application/json")], "card1", 100⟩

/-- Pending scan e2 of the drain-ordering scenario. -/
def scanE2 : PendingScan :=
  ⟨2, "https://api.mobicard.com/v1/scan", [("content-type", "application/json")], "card2", 101⟩

/-- Pending scan e3 of the drain-ordering scenario. -/
def scanE3 : PendingScan :=
  ⟨3, "https://api.mobicard.com/v1/scan", [("content-type", "application/json")], "card3", 102⟩

/-- Network oracle of the drain-ordering scenario: the resubmission carrying
e1's body gets a 500, every other one succeeds. -/
def scenarioNet : SyncRequest → Option Response :=
  fun req => if req.body == "card1" then some respServerErr else some respOk

/-- A drain in which no `db.delete` call throws. -/
def noDelFail : Nat → Bool := fun _ => false

/-- Scan data handed to `saveForOffline` in concrete scenarios. -/
def demoScanData : ScanData :=
  ⟨"https://api.mobicard.com/v1/scan", [("content-type", "application/json")], "cardX"⟩

/-- The cache produced by a fully successful install against `demoNet`. -/
def demoInstalled : Cache := (ASSETS_TO_CACHE.map (fun u => (u, respOk))) ++ []

/-- A spec-shaped entry whose stored method is `PUT`, not `POST`. -/
def specEntryPut : SpecPendingEntry :=
  ⟨9, "https://api.mobicard.com/v1/scan", "PUT", [], "payload", 0⟩

/-- No entry of the cache is keyed by a URL containing `/api/`. -/
def noApi (c : Cache) : Prop := ∀ p ∈ c, includes p.1 "/api/" = false

/-- Whether some record of the store carries the given id. -/
def idPresent (store : List StoreRecord) (i : Nat) : Bool :=
  store.foldr (fun r b => (r.id == i) || b) false

/-- Named caches present before activation: two stale generations and the
current one. -/
def demoStores : List (String × Cache) :=
  [("v1", []), ("v2", []), (CACHE_NAME, cachedCss)]

/-- A cache hit short-circuits the handler: the stored response is returned
and the cache is untouched, whatever the network oracle would answer. -/
theorem handleFetch_hit (c : Cache) (net : String → Option Response) (req : Request)
    (r : Response) (h : cacheMatch c req.url = some r) :
    handleFetch c net req = (FetchOutcome.fromCache r, c) := by
  unfold handleFetch
  rw [h]

/-- C1: when the request's key has a stored response in the current cache,
the fetch handler returns exactly that stored response with the cache state
unchanged, on every one of `n` repeated fetches; the result is the same for
every network oracle `net`, so no network request is consulted. -/
theorem cache_first_repeated_fetch (c : Cache) (req : Request) (r : Response)
    (h : cacheMatch c req.url = some r) (net : String → Option Response) (n : Nat) :
    fetchMany net req n c = (List.replicate n (FetchOutcome.fromCache r), c) := by
  induction n with
  | zero => rfl
  | succ k ih =>
    have hf := handleFetch_hit c net req r h
    simp [fetchMany, hf, ih, List.replicate_succ]

/-- Witness for C1: two consecutive fetches of `/styles.css` against a cache
holding it both answer from the cache and leave the cache unchanged. -/
theorem cache_first_repeated_fetch_witness :
    fetchMany demoNet ⟨"/styles.css"⟩ 2 cachedCss =
      (List.replicate 2 (FetchOutcome.fromCache respOk), cachedCss) :=
  cache_first_repeated_fetch cachedCss ⟨"/styles.css"⟩ respOk (by decide) demoNet 2

/-- C5: on a cache miss for a non-API request answered by the network, a
status-200 response is stored under the request's URL (and the stored entry
is immediately retrievable) while the response itself is returned; any other
status is returned with the cache left unchanged. -/
theorem miss_caching_policy (c : Cache) (net : String → Option Response) (req : Request)
    (r : Response) (hmiss : cacheMatch c req.url = none)
    (hapi : includes req.url "/api/" = false) (hnet : net req.url = some r) :
    (r.status = 200 →
      handleFetch c net req = (FetchOutcome.fromNet r, cachePut c req.url r) ∧
      cacheMatch (handleFetch c net req).2 req.url = some r) ∧
    (r.status ≠ 200 → handleFetch c net req = (FetchOutcome.fromNet r, c)) := by
  unfold handleFetch
  rw [hmiss, hnet, hapi]
  constructor
  · intro h200
    have hb : (r.status == 200) = true := by simp [h200]
    simp [hb, cacheMatch, cachePut]
  · intro hne
    have hb : (r.status == 200) = false := by simp [hne]
    simp [hb]

/-- Witness for C5: a miss on `/styles.css` answered 200 is returned and
stored, and the stored copy is found on lookup. -/
theorem miss_caching_policy_witness :
    handleFetch [] demoNet ⟨"/styles.css"⟩ =
      (FetchOutcome.fromNet respOk, cachePut [] "/styles.css" respOk) ∧
    cacheMatch (handleFetch [] demoNet ⟨"/styles.css"⟩).2 "/styles.css" = some respOk :=
  (miss_caching_policy [] demoNet ⟨"/styles.css"⟩ respOk rfl (by decide) rfl).1 rfl

/-- A successful lookup only ever returns an entry of the cache. -/
theorem cacheMatch_mem (url : String) (r : Response) :
    ∀ c : Cache, cacheMatch c url = some r → (url, r) ∈ c := by
  intro c
  induction c with
  | nil => intro h; simp [cacheMatch] at h
  | cons p rest ih =>
    intro h
    obtain ⟨k, v⟩ := p
    by_cases hk : (k == url) = true
    · rw [cacheMatch, if_pos hk] at h
      have hkeq : k = url := by simpa using hk
      have hveq : v = r := by simpa using h
      subst hkeq; subst hveq
      exact List.mem_cons_self _ _
    · rw [cacheMatch, if_neg hk] at h
      exact List.mem_cons_of_mem _ (ih h)

/-- In a cache with no API-keyed entry, an API URL always misses. -/
theorem noApi_cacheMatch (c : Cache) (url : String) (h : noApi c)
    (hapi : includes url "/api/" = true) : cacheMatch c url = none := by
  cases hm : cacheMatch c url with
  | none => rfl
  | some r =>
    have hmem := cacheMatch_mem url r c hm
    have hfalse := h (url, r) hmem
    simp [hfalse] at hapi

/-- Every entry `addAll` produces is keyed by one of the requested URLs. -/
theorem addAll_mem (net : String → Option Response) :
    ∀ (urls : List String) (entries : List (String × Response)) (p : String × Response),
      addAll net urls = some entries → p ∈ entries → p.1 ∈ urls := by
  intro urls
  induction urls with
  | nil =>
    intro entries p h hp
    simp [addAll] at h
    subst h
    simp at hp
  | cons u rest ih =>
    intro entries p h hp
    unfold addAll at h
    cases hn : net u with
    | none => rw [hn] at h; simp at h
    | some r =>
      cases ha : addAll net rest with
      | none => rw [hn, ha] at h; simp at h
      | some tl =>
        rw [hn, ha] at h
        simp at h
        subst h
        rcases List.mem_cons.mp hp with hp | hp
        · subst hp; exact List.mem_cons_self _ _
        · exact List.mem_cons_of_mem _ (ih tl p ha hp)

/-- No URL of the install manifest contains the `/api/` segment. -/
theorem assets_noApi : ∀ u ∈ ASSETS_TO_CACHE, includes u "/api/" = false := by decide

/-- Every event of the worker preserves the absence of API-keyed entries. -/
theorem noApi_applyEvent (c : Cache) (e : SwEvent) (h : noApi c) :
    noApi (applyEvent c e) := by
  cases e with
  | installEv net =>
    simp only [applyEvent]
    cases hi : install net c with
    | none => exact h
    | some c2 =>
      unfold install at hi
      cases ha : addAll net ASSETS_TO_CACHE with
      | none => rw [ha] at hi; simp at hi
      | some entries =>
        rw [ha] at hi
        simp at hi
        subst hi
        intro p hp
        rcases List.mem_append.mp hp with hp | hp
        · exact assets_noApi p.1 (addAll_mem net ASSETS_TO_CACHE entries p ha hp)
        · exact h p hp
  | fetchEv net req =>
    show noApi (handleFetch c net req).2
    unfold handleFetch
    cases hm : cacheMatch c req.url with
    | some r => exact h
    | none =>
      cases hn : net req.url with
      | none => exact h
      | some r =>
        by_cases hapi : includes req.url "/api/" = true
        · simp [hapi]; exact h
        · have hapi2 : includes req.url "/api/" = false := by
            cases hb : includes req.url "/api/"
            · rfl
            · exact absurd hb hapi
          by_cases h200 : r.status = 200
          · simp [hapi2, h200, cachePut]
            intro p hp
            rcases List.mem_cons.mp hp with hp | hp
            · subst hp; exact hapi2
            · exact h p hp
          · simp [hapi2, h200]
            exact h

/-- Starting from the empty cache, every reachable cache state is free of
API-keyed entries. -/
theorem runEvents_noApi (events : List SwEvent) : noApi (runEvents [] events) := by
  have key : ∀ c : Cache, noApi c → noApi (events.foldl applyEvent c) := by
    induction events with
    | nil => intro c h; exact h
    | cons e rest ih => intro c h; exact ih (applyEvent c e) (noApi_applyEvent c e h)
  exact key [] (by intro p hp; simp at hp)

/-- C4: in any cache state reachable from the empty cache by install and
fetch events, no entry is keyed by a URL containing `/api/`; the handler
never answers such a request from the cache; and handling such a request
leaves the cache unchanged (nothing is written, whatever the status). -/
theorem api_never_cached (events : List SwEvent) (net : String → Option Response)
    (req : Request) (r : Response) (hapi : includes req.url "/api/" = true) :
    (∀ p ∈ runEvents [] events, includes p.1 "/api/" = false) ∧
    (handleFetch (runEvents [] events) net req).1 ≠ FetchOutcome.fromCache r ∧
    (handleFetch (runEvents [] events) net req).2 = runEvents [] events := by
  have hno := runEvents_noApi events
  have hm := noApi_cacheMatch (runEvents [] events) req.url hno hapi
  refine ⟨hno, ?_, ?_⟩
  · unfold handleFetch
    rw [hm]
    cases hn : net req.url <;> simp [hapi]
  · unfold handleFetch
    rw [hm]
    cases hn : net req.url <;> simp [hapi]

/-- Witness for C4: after an install event, a request to `/api/v1/scan` is
not served from the cache and writes nothing to it. -/
theorem api_never_cached_witness :
    (handleFetch (runEvents [] [SwEvent.installEv demoNet]) demoNet ⟨"/api/v1/scan"⟩).1 ≠
      FetchOutcome.fromCache respOk ∧
    (handleFetch (runEvents [] [SwEvent.installEv demoNet]) demoNet ⟨"/api/v1/scan"⟩).2 =
      runEvents [] [SwEvent.installEv demoNet] :=
  (api_never_cached [SwEvent.installEv demoNet] demoNet ⟨"/api/v1/scan"⟩ respOk
    (by decide)).2

/-- Every store surviving activation is named `CACHE_NAME`. -/
theorem activate_names (stores : List (String × Cache)) :
    ∀ s ∈ activate stores, s.1 = CACHE_NAME := by
  intro s hs
  have hf := List.mem_filter.mp hs
  simpa using hf.2

/-- A successful `multiMatch` reports the name of one of its stores. -/
theorem multiMatch_name_mem :
    ∀ (l : List (String × Cache)) (url nm : String) (r : Response),
      multiMatch l url = some (nm, r) → ∃ c, (nm, c) ∈ l := by
  intro l
  induction l with
  | nil => intro url nm r hh; simp [multiMatch] at hh
  | cons p rest ih =>
    intro url nm r hh
    obtain ⟨name, c⟩ := p
    unfold multiMatch at hh
    cases hm : cacheMatch c url with
    | some rr =>
      rw [hm] at hh
      simp at hh
      exact ⟨c, by simp [hh.1]⟩
    | none =>
      rw [hm] at hh
      obtain ⟨c2, hc⟩ := ih url nm r hh
      exact ⟨c2, List.mem_cons_of_mem _ hc⟩

/-- C8: after the activate handler runs, every surviving generation is the
new one (`CACHE_NAME`): a store named anything else is gone, a store named
`CACHE_NAME` survives, and any request served through the post-activation
state is answered by a generation named `CACHE_NAME` — serving starts only
from the filtered state, since `clients.claim` is chained after the
deletions resolve. -/
theorem activate_purges_old_generations (stores : List (String × Cache)) :
    (∀ s ∈ activate stores, s.1 = CACHE_NAME) ∧
    (∀ s ∈ stores, s.1 = CACHE_NAME → s ∈ activate stores) ∧
    (∀ url nm r, multiMatch (activate stores) url = some (nm, r) → nm = CACHE_NAME) := by
  refine ⟨activate_names stores, ?_, ?_⟩
  · intro s hs h1
    exact List.mem_filter.mpr ⟨hs, by simp [h1]⟩
  · intro url nm r hh
    obtain ⟨c, hc⟩ := multiMatch_name_mem (activate stores) url nm r hh
    exact activate_names stores (nm, c) hc

/-- Witness for C8: activating over generations v1, v2 and the current one
keeps the current generation, and a lookup through the surviving state is
answered by the generation named `CACHE_NAME`. -/
theorem activate_purges_old_generations_witness :
    (CACHE_NAME, cachedCss) ∈ activate demoStores ∧
    ("mobicard-scanner-v1" : String) = CACHE_NAME :=
  ⟨(activate_purges_old_generations demoStores).2.1 (CACHE_NAME, cachedCss)
      (by decide) rfl,
   (activate_purges_old_generations demoStores).2.2 "/styles.css"
      "mobicard-scanner-v1" respOk (by decide)⟩

/-- The operation `addAll` succeeds exactly when every requested fetch succeeds. -/
theorem addAll_isSome (net : String → Option Response) :
    ∀ urls : List String,
      (addAll net urls).isSome = true ↔ ∀ u ∈ urls, (net u).isSome = true := by
  intro urls
  induction urls with
  | nil => simp [addAll]
  | cons u rest ih =>
    constructor
    · intro h
      unfold addAll at h
      cases hn : net u with
      | none => rw [hn] at h; simp at h
      | some r =>
        cases ha : addAll net rest with
        | none => rw [hn, ha] at h; simp at h
        | some tl =>
          intro v hv
          rcases List.mem_cons.mp hv with hv | hv
          · subst hv; simp [hn]
          · exact ih.mp (by simp [ha]) v hv
    · intro h
      unfold addAll
      cases hn : net u with
      | none =>
        have := h u (List.mem_cons_self _ _)
        simp [hn] at this
      | some r =>
        cases ha : addAll net rest with
        | none =>
          have := ih.mpr (fun v hv => h v (List.mem_cons_of_mem _ hv))
          simp [ha] at this
        | some tl => simp

/-- On success, `addAll` stores each requested URL with its fetched
response, retrievable by lookup when the URL list has no duplicates. -/
theorem addAll_lookup (net : String → Option Response) :
    ∀ (urls : List String) (entries : List (String × Response)), urls.Nodup →
      addAll net urls = some entries → ∀ u ∈ urls, cacheMatch entries u = net u := by
  intro urls
  induction urls with
  | nil => intro entries _ _ u hu; simp at hu
  | cons u0 rest ih =>
    intro entries hnd h u hu
    unfold addAll at h
    cases hn : net u0 with
    | none => rw [hn] at h; simp at h
    | some r0 =>
      cases ha : addAll net rest with
      | none => rw [hn, ha] at h; simp at h
      | some tl =>
        rw [hn, ha] at h
        simp at h
        subst h
        rcases List.mem_cons.mp hu with hu | hu
        · subst hu
          simp [cacheMatch, hn]
        · have hne : u0 ≠ u := by
            intro he
            exact (List.nodup_cons.mp hnd).1 (he ▸ hu)
          have hb : (u0 == u) = false := by simp [hne]
          rw [cacheMatch, if_neg (by simp [hb])]
          exact ih tl (List.nodup_cons.mp hnd).2 ha u hu

/-- The install manifest has no duplicate URLs. -/
theorem assets_nodup : ASSETS_TO_CACHE.Nodup := by decide

/-- A hit in the front part of an appended cache survives the append. -/
theorem cacheMatch_append_left :
    ∀ (c1 c2 : Cache) (url : String) (r : Response),
      cacheMatch c1 url = some r → cacheMatch (c1 ++ c2) url = some r := by
  intro c1
  induction c1 with
  | nil => intro c2 url r h; simp [cacheMatch] at h
  | cons p rest ih =>
    intro c2 url r h
    obtain ⟨k, v⟩ := p
    by_cases hk : (k == url) = true
    · rw [cacheMatch, if_pos hk] at h
      rw [List.cons_append, cacheMatch, if_pos hk]
      exact h
    · rw [cacheMatch, if_neg hk] at h
      rw [List.cons_append, cacheMatch, if_neg hk]
      exact ih c2 url r h

/-- C9: the install step succeeds exactly when every manifest asset fetch
succeeds — one failing asset fails the whole install, and a failed install
leaves the cache state untouched, so a partially populated generation never
becomes current; on success the new state holds every manifest asset under
its URL with its fetched response. -/
theorem install_atomic_bootstrap (net : String → Option Response) (c : Cache) :
    ((install net c).isSome = true ↔ ∀ u ∈ ASSETS_TO_CACHE, (net u).isSome = true) ∧
    (∀ c2, install net c = some c2 → ∀ u ∈ ASSETS_TO_CACHE, cacheMatch c2 u = net u) ∧
    (install net c = none → applyEvent c (SwEvent.installEv net) = c) := by
  refine ⟨?_, ?_, ?_⟩
  · rw [show (install net c).isSome = (addAll net ASSETS_TO_CACHE).isSome by
        unfold install; cases addAll net ASSETS_TO_CACHE <;> rfl]
    exact addAll_isSome net ASSETS_TO_CACHE
  · intro c2 h u hu
    unfold install at h
    cases ha : addAll net ASSETS_TO_CACHE with
    | none => rw [ha] at h; simp at h
    | some entries =>
      rw [ha] at h
      simp at h
      subst h
      have hlook := addAll_lookup net ASSETS_TO_CACHE entries assets_nodup ha u hu
      cases hn : net u with
      | none =>
        have hsome := (addAll_isSome net ASSETS_TO_CACHE).mp (by simp [ha]) u hu
        simp [hn] at hsome
      | some r =>
        rw [hn] at hlook
        rw [cacheMatch_append_left entries c u r hlook]
  · intro h
    simp only [applyEvent]
    rw [h]

/-- Witness for C9: against a network where every asset fetch succeeds, the
installed cache answers `/index.html` with the fetched response. -/
theorem install_atomic_bootstrap_witness :
    cacheMatch demoInstalled "/index.html" = demoNet "/index.html" :=
  (install_atomic_bootstrap demoNet []).2.1 demoInstalled (by rfl) "/index.html"
    (by decide)

/-- C2: one drain attempts a resubmission for every pending entry, in
enqueue order (the attempt list is the entry list mapped to its requests),
and afterwards the store holds exactly the entries whose resubmission did
not succeed (network error, non-ok status, or a failed delete); in the
concrete scenario e1 fails and e2, e3 succeed, so exactly [e1] remains and
e1, e2, e3 were attempted in that order. -/
theorem sync_drain_order_and_filter :
    (∀ (snet : SyncRequest → Option Response) (delFail : Nat → Bool)
        (pending : List PendingScan),
      syncScans snet delFail pending =
        (pending.filter (keptAfterSync snet delFail), pending.map resubmitRequest)) ∧
    syncScans scenarioNet noDelFail [scanE1, scanE2, scanE3] =
      ([scanE1], [resubmitRequest scanE1, resubmitRequest scanE2, resubmitRequest scanE3]) := by
  constructor
  · intro snet delFail pending
    induction pending with
    | nil => rfl
    | cons s rest ih =>
      cases hn : snet (resubmitRequest s) with
      | none =>
        simp [syncScans, hn, ih, List.filter_cons, keptAfterSync]
      | some r =>
        cases hok : r.ok with
        | false =>
          simp [syncScans, hn, hok, ih, List.filter_cons, keptAfterSync]
        | true =>
          cases hdf : delFail s.id with
          | false =>
            simp [syncScans, hn, hok, hdf, ih, List.filter_cons, keptAfterSync]
          | true =>
            simp [syncScans, hn, hok, hdf, ih, List.filter_cons, keptAfterSync]
  · decide

/-- C3: in every state the drain step relation can reach, `db.delete` has
been invoked only on ids whose resubmission the network acknowledged with
an ok response, and an entry absent from the store was acknowledged and had
a non-throwing delete — an entry whose delete threw is still in the store,
to be retried on the next drain. -/
theorem sync_at_least_once (snet : SyncRequest → Option Response)
    (delFail : Nat → Bool) (store0 : List PendingScan) (st : DrainState)
    (h : Relation.ReflTransGen (DrainStep snet delFail) ⟨store0, store0, [], []⟩ st) :
    (∀ i ∈ st.deletions, i ∈ st.acks) ∧
    (∀ e ∈ store0, e ∉ st.store → e.id ∈ st.acks ∧ delFail e.id = false) := by
  induction h with
  | refl =>
    refine ⟨by simp, ?_⟩
    intro e he hnot
    exact absurd he hnot
  | tail hsteps hstep ih =>
    obtain ⟨ih1, ih2⟩ := ih
    cases hstep with
    | netErr store s q d a hn => exact ⟨ih1, ih2⟩
    | netNotOk store s q d a r hn hok => exact ⟨ih1, ih2⟩
    | deleteThrew store s q d a r hn hok hdf =>
      refine ⟨?_, ?_⟩
      · intro i hi
        rcases List.mem_cons.mp hi with hi | hi
        · exact hi ▸ List.mem_cons_self _ _
        · exact List.mem_cons_of_mem _ (ih1 i hi)
      · intro e he hnot
        obtain ⟨ha2, hd2⟩ := ih2 e he hnot
        exact ⟨List.mem_cons_of_mem _ ha2, hd2⟩
    | deleteOk store s q d a r hn hok hdf =>
      refine ⟨?_, ?_⟩
      · intro i hi
        rcases List.mem_cons.mp hi with hi | hi
        · exact hi ▸ List.mem_cons_self _ _
        · exact List.mem_cons_of_mem _ (ih1 i hi)
      · intro e he hnot
        by_cases hes : e ∈ store
        · have hkeep : ¬(e ∈ store ∧ (e.id != s.id) = true) := by
            intro hc
            exact hnot (List.mem_filter.mpr hc)
          have hid : e.id = s.id := by
            by_cases hb : (e.id != s.id) = true
            · exact absurd ⟨hes, hb⟩ hkeep
            · simpa using hb
          exact ⟨hid ▸ List.mem_cons_self _ _, hid ▸ hdf⟩
        · obtain ⟨ha2, hd2⟩ := ih2 e he hes
          exact ⟨List.mem_cons_of_mem _ ha2, hd2⟩

/-- Witness for C3: one drain step resubmits e2 successfully and removes it;
the invariant instantiated at e2 confirms its id was acknowledged and its
delete did not throw. -/
theorem sync_at_least_once_witness :
    scanE2.id ∈ ([2] : List Nat) ∧ noDelFail scanE2.id = false :=
  (sync_at_least_once scenarioNet noDelFail [scanE2]
      ⟨removeById [scanE2] 2, [], [2], [2]⟩
      (Relation.ReflTransGen.single
        (DrainStep.deleteOk [scanE2] scanE2 [] [] [] respOk (by decide) (by decide)
          rfl))).2
    scanE2 (by decide) (by decide)

/-- Counterexample for C6: the drain does not use a stored method — for a
spec-shaped entry whose stored method is `PUT`, the issued request's method
differs from the entry's. -/
theorem resubmit_method_counterexample :
    (resubmitSpecEntry specEntryPut).method ≠ specEntryPut.method := by decide

/-- C6 (amended): the resubmitted request is built from the entry's own
url, headers and body, but its method is the literal `POST`, regardless of
anything stored in the entry; the same holds for the records the store
actually persists (which carry no method at all). -/
theorem resubmit_uses_post :
    (∀ e : SpecPendingEntry, resubmitSpecEntry e =
      { url := e.url, method := "POST", headers := e.headers, body := e.body }) ∧
    (∀ s : PendingScan, resubmitRequest s =
      { url := s.url, method := "POST", headers := s.headers, body := s.body }) :=
  ⟨fun _ => rfl, fun _ => rfl⟩

/-- Counterexample for C7: the record `saveForOffline` persists has no
method field — its field names are exactly url, headers, body, timestamp. -/
theorem queue_record_no_method_field :
    ((pendingRecord demoScanData 100).lookup "method") = none ∧
    (pendingRecord demoScanData 100).map Prod.fst =
      ["url", "headers", "body", "timestamp"] := by decide

/-- Every record's id is bounded by the store's maximum id. -/
theorem maxId_bound (store : List StoreRecord) : ∀ r ∈ store, r.id ≤ maxId store := by
  induction store with
  | nil => simp
  | cons x rest ih =>
    intro r hr
    rcases List.mem_cons.mp hr with hr | hr
    · subst hr
      exact le_max_left _ _
    · exact le_trans (ih r hr) (le_max_right _ _)

/-- An id strictly above the store's maximum is not present in the store. -/
theorem idPresent_gt (i : Nat) :
    ∀ store : List StoreRecord, maxId store < i → idPresent store i = false := by
  intro store
  induction store with
  | nil => intro _; rfl
  | cons x rest ih =>
    intro h
    have h1 : x.id ≠ i := Nat.ne_of_lt (lt_of_le_of_lt (le_max_left _ _) h)
    have h2 : maxId rest < i := lt_of_le_of_lt (le_max_right _ _) h
    show ((x.id == i) || idPresent rest i) = false
    rw [ih h2]
    simp [h1]

/-- C7 (amended): the persisted record's fields are exactly url, headers,
body, timestamp (no method field); `add` appends one record with a
store-assigned id, and that id is not carried by any existing record. -/
theorem queue_record_shape (d : ScanData) (now : Nat) (store : List StoreRecord)
    (fields : List (String × JsValue)) :
    (pendingRecord d now).map Prod.fst = ["url", "headers", "body", "timestamp"] ∧
    storeAdd store fields = store ++ [⟨freshId store, fields⟩] ∧
    idPresent store (freshId store) = false :=
  ⟨rfl, rfl, idPresent_gt (freshId store) store (Nat.lt_succ_self _)⟩

/-- Counterexample for C10: offline with no sync registration available,
`saveForOffline` returns true and persists the record, yet registers no
sync trigger. -/
theorem saveForOffline_sync_reg_counterexample :
    (saveForOffline false false [] demoScanData 100).returned = true ∧
    (saveForOffline false false [] demoScanData 100).syncRegistered = false := by
  decide

/-- C10 (amended): when online, `saveForOffline` returns false and leaves
the store untouched; when offline, it appends exactly one record built from
the scan data, returns true, and registers the sync trigger exactly when a
sync registration is available. -/
theorem saveForOffline_behavior (onLine hasSyncReg : Bool)
    (store : List StoreRecord) (d : ScanData) (now : Nat) :
    (onLine = true → saveForOffline onLine hasSyncReg store d now =
      { returned := false, store := store, syncRegistered := false }) ∧
    (onLine = false → saveForOffline onLine hasSyncReg store d now =
      { returned := true,
        store := store ++ [⟨freshId store, pendingRecord d now⟩],
        syncRegistered := hasSyncReg }) := by
  constructor
  · intro h; subst h; rfl
  · intro h; subst h; rfl

/-- Witness for C10 (amended): a concrete offline call with a registration
available appends the record, returns true and registers the trigger. -/
theorem saveForOffline_behavior_witness :
    saveForOffline false true [] demoScanData 100 =
      { returned := true,
        store := [] ++ [⟨freshId [], pendingRecord demoScanData 100⟩],
        syncRegistered := true } :=
  (saveForOffline_behavior false true [] demoScanData 100).2 rfl

end ScanApiPwa
